import Mathlib

/-!
Verification of the dissect replay decoder (`reader/header.go`).

The decoder is embedded shallowly: the byte source is a `ByteCursor` (a list of
byte values together with an optional error that the underlying source
reports once its data is exhausted), and every fallible operation returns
`Except Err`.  The functions `readHeaderMagic`, `readHeader`
(with its loop body `processPair`) and `readPlayers` are translated from
`reader/header.go`; the reader primitives (`readBytes`, `seek`, `readInt`,
`readString`), the string separator constant and the record types, whose
sources are outside the provided tree, are modelled from the specification
(sections 3, 4.1 and 4.2), as marked on each definition.
-/

set_option maxRecDepth 10000

/-- Error values surfaced by the decoder.  `patternNotFound` is the
distinguished "pattern never occurred before exhaustion" signal of the
forward pattern search (the code compares it with `zstd.ErrMagicMismatch`);
`other` stands for an arbitrary error reported by the underlying
decompressed byte source. -/
inductive Err where
  | invalidFile
  | invalidStringSep
  | patternNotFound
  | eof
  | atoiFailure
  | timeFailure
  | other (code : Nat)
deriving DecidableEq, Repr

deriving instance DecidableEq for Except

/-- Modelled from the spec (section 4.1): the decompressed byte source.
`data` holds the bytes still unread; `tailErr` is the error the underlying
source reports after `data` is exhausted (`none` means a clean end of
stream). -/
structure ByteCursor where
  data : List Nat
  tailErr : Option Err
deriving DecidableEq, Repr

/-- Modelled from the spec (section 4.1): `read(n)` returns exactly `n`
bytes and advances, or fails with the underlying error (`UnexpectedEOF` on
a clean exhaustion). -/
def readBytes (n : Nat) (s : ByteCursor) : Except Err (List Nat × ByteCursor) :=
  if n ≤ s.data.length then .ok (s.data.take n, ⟨s.data.drop n, s.tailErr⟩)
  else .error (s.tailErr.getD .eof)

/-- Index of the first occurrence of `pat` in `l`, if any. -/
def findPat (pat : List Nat) : List Nat → Option Nat
  | [] => if pat.isPrefixOf ([] : List Nat) then some 0 else none
  | b :: rest =>
    if pat.isPrefixOf (b :: rest) then some 0
    else (findPat pat rest).map (· + 1)

/-- Modelled from the spec (sections 4.1 and 7): `seek(pattern)` consumes
bytes up to and including the first occurrence of `pattern`; if the source
exhausts cleanly first it fails with the distinguished `patternNotFound`
signal, and if the underlying read itself fails the underlying error is
reported instead. -/
def seek (pat : List Nat) (s : ByteCursor) : Except Err ByteCursor :=
  match findPat pat s.data with
  | some k => .ok ⟨s.data.drop (k + pat.length), s.tailErr⟩
  | none => .error (s.tailErr.getD .patternNotFound)

/-- Little-endian value of a byte list. -/
def leVal : List Nat → Nat
  | [] => 0
  | b :: rest => b + 256 * leVal rest

/-- Modelled from the spec (section 4.2): a fixed-width 4-byte
little-endian signed integer. -/
def readInt (s : ByteCursor) : Except Err (Int × ByteCursor) :=
  match readBytes 4 s with
  | .error e => .error e
  | .ok (b, s') =>
    let v := leVal b
    .ok (if v < 2147483648 then (v : Int) else (v : Int) - 4294967296, s')

/-- Modelled from the spec (section 4.2): the body-variant string read used
by the player scanner — one length byte immediately followed by the
payload, with no separator. -/
def readString (s : ByteCursor) : Except Err (List Nat × ByteCursor) :=
  match readBytes 1 s with
  | .error e => .error e
  | .ok (lb, s1) =>
    match readBytes (lb.headD 0) s1 with
    | .error e => .error e
    | .ok (str, s2) => .ok (str, s2)

/-- Byte values of an ASCII string literal. -/
def ascii (s : String) : List Nat := s.data.map Char.toNat

/-- Modelled from the spec (section 4.2): the fixed 7-byte separator
constant of the header string format (its concrete value is outside the
provided sources; the claims only depend on it being a fixed 7-byte
constant). -/
def strSep : List Nat := [0, 0, 0, 0, 0, 0, 0]

/-- `readHeaderString` from `reader/header.go`: one length byte, the 7-byte
separator (mismatch fails with `ErrInvalidStringSep`), then the payload. -/
def readHeaderString (s : ByteCursor) : Except Err (List Nat × ByteCursor) :=
  match readBytes 1 s with
  | .error e => .error e
  | .ok (lb, s1) =>
    match readBytes 7 s1 with
    | .error e => .error e
    | .ok (sep, s2) =>
      if sep ≠ strSep then .error .invalidStringSep
      else
        match readBytes (lb.headD 0) s2 with
        | .error e => .error e
        | .ok (str, s3) => .ok (str, s3)

/-- Decimal digit test on a byte value. -/
def isDigitByte (b : Nat) : Bool := 48 ≤ b && b ≤ 57

/-- Value of a list of decimal digit bytes. -/
def digitsVal (l : List Nat) : Nat := l.foldl (fun a c => a * 10 + (c - 48)) 0

/-- Modelled from Go's `strconv.Atoi` as used by the source: an optional
sign followed by a nonempty run of decimal digits; anything else fails
(64-bit overflow is out of the modelled range). -/
def atoi (l : List Nat) : Except Err Int :=
  let signed : Bool × List Nat :=
    match l with
    | 45 :: rest => (true, rest)
    | 43 :: rest => (false, rest)
    | _ => (false, l)
  let ds := signed.2
  if ds ≠ [] ∧ ds.all isDigitByte then
    .ok (if signed.1 then -(digitsVal ds : Int) else (digitsVal ds : Int))
  else .error .atoiFailure

/-- Modelled from the spec (section 3): the timestamp is parsed from the
fixed textual layout `YYYY-MM-DD-HH-MM-SS`; failure is fatal. -/
def parseDatetime (l : List Nat) : Except Err (Nat × Nat × Nat × Nat × Nat × Nat) :=
  if l.length = 19 ∧
     l.getD 4 0 = 45 ∧ l.getD 7 0 = 45 ∧ l.getD 10 0 = 45 ∧
     l.getD 13 0 = 45 ∧ l.getD 16 0 = 45 ∧
     ((List.range 19).all fun i =>
        i = 4 || i = 7 || i = 10 || i = 13 || i = 16 || isDigitByte (l.getD i 0)) then
    let y := digitsVal (l.take 4)
    let mo := digitsVal ((l.drop 5).take 2)
    let d := digitsVal ((l.drop 8).take 2)
    let h := digitsVal ((l.drop 11).take 2)
    let mi := digitsVal ((l.drop 14).take 2)
    let se := digitsVal ((l.drop 17).take 2)
    if 1 ≤ mo ∧ mo ≤ 12 ∧ 1 ≤ d ∧ d ≤ 31 ∧ h ≤ 23 ∧ mi ≤ 59 ∧ se ≤ 59 then
      .ok (y, mo, d, h, mi, se)
    else .error .timeFailure
  else .error .timeFailure

/-- Modelled from the spec (section 3): the `types.Player` record.  String
fields default to empty, integer fields to zero, matching the Go zero
value used by `types.Player{}`. -/
structure Player where
  id : List Nat := []
  profileID : List Nat := []
  username : List Nat := []
  teamIndex : Int := 0
  heroName : Int := 0
  alliance : Int := 0
  roleImage : Int := 0
  roleName : List Nat := []
  rolePortrait : Int := 0
deriving DecidableEq, Repr

/-- Modelled from the spec (section 3): the `types.Team` record. -/
structure Team where
  name : List Nat := []
  score : Int := 0
deriving DecidableEq, Repr

/-- Modelled from the spec (section 3): the `types.Header` record. -/
structure Header where
  gameVersion : List Nat := []
  codeVersion : Int := 0
  timestamp : Nat × Nat × Nat × Nat × Nat × Nat := (0, 0, 0, 0, 0, 0)
  matchType : Int := 0
  map : Int := 0
  gameMode : Int := 0
  recordingPlayerID : List Nat := []
  recordingProfileID : List Nat := []
  additionalTags : List Nat := []
  roundsPerMatch : Int := 0
  roundsPerMatchOvertime : Int := 0
  roundNumber : Int := 0
  overtimeRoundNumber : Int := 0
  playlistCategory : Int := 0
  matchID : List Nat := []
  teams : Team × Team := ({}, {})
  gmSettings : List Int := []
  players : List Player := []
deriving DecidableEq, Repr

/-- First value stored for key `k` (newest first), mirroring a Go map. -/
def mapGet (m : List (List Nat × List Nat)) (k : List Nat) : Option (List Nat) :=
  (m.find? (fun p => p.1 == k)).map (·.2)

/-- Go map read with the zero value (empty string) for a missing key. -/
def mapGetD (m : List (List Nat × List Nat)) (k : List Nat) : List Nat :=
  (mapGet m k).getD []

/-- The mutable state of the header property loop in `readHeader`:
the top-level property map, the GM-setting list, the finalized players,
the in-progress player and the `playerData` flag. -/
structure LoopSt where
  props : List (List Nat × List Nat) := []
  gmSettings : List Int := []
  players : List Player := []
  currentPlayer : Player := {}
  playerData : Bool := false
deriving DecidableEq, Repr

/-- One iteration body of the `readHeader` property loop
(`reader/header.go` lines 71–131), for one key/value pair. -/
def processPair (k v : List Nat) (st : LoopSt) : Except Err LoopSt :=
  let st1 :=
    if k == ascii "playerid" then
      { st with
        players := if st.playerData then st.players ++ [st.currentPlayer] else st.players,
        playerData := true, currentPlayer := {} }
    else st
  let st2 :=
    if (k == ascii "playlistcategory" || k == ascii "id") && st1.playerData then
      { st1 with players := st1.players ++ [st1.currentPlayer], playerData := false }
    else st1
  if !st2.playerData then
    if k != ascii "gmsetting" then .ok { st2 with props := (k, v) :: st2.props }
    else
      match atoi v with
      | .ok n => .ok { st2 with gmSettings := st2.gmSettings ++ [n] }
      | .error e => .error e
  else
    if k == ascii "playerid" then
      .ok { st2 with currentPlayer := { st2.currentPlayer with id := v } }
    else if k == ascii "playername" then
      .ok { st2 with currentPlayer := { st2.currentPlayer with username := v } }
    else if k == ascii "team" then
      match atoi v with
      | .ok n => .ok { st2 with currentPlayer := { st2.currentPlayer with teamIndex := n } }
      | .error e => .error e
    else if k == ascii "heroname" then
      match atoi v with
      | .ok n => .ok { st2 with currentPlayer := { st2.currentPlayer with heroName := n } }
      | .error e => .error e
    else if k == ascii "alliance" then
      match atoi v with
      | .ok n => .ok { st2 with currentPlayer := { st2.currentPlayer with alliance := n } }
      | .error e => .error e
    else if k == ascii "roleimage" then
      match atoi v with
      | .ok n => .ok { st2 with currentPlayer := { st2.currentPlayer with roleImage := n } }
      | .error e => .error e
    else if k == ascii "rolename" then
      .ok { st2 with currentPlayer := { st2.currentPlayer with roleName := v } }
    else if k == ascii "roleportrait" then
      match atoi v with
      | .ok n => .ok { st2 with currentPlayer := { st2.currentPlayer with rolePortrait := n } }
      | .error e => .error e
    else .ok st2

/-- The `readHeader` property loop: reads key/value pairs and processes
them until the property map contains `teamscore1` (checked after each
pair, as in the Go `for lastProp` loop).  `fuel` bounds the recursion;
`readHeader` passes more fuel than any terminating run can use, and a
successful pair consumes at least 16 bytes, so the fuel-exhaustion branch
is unreachable on the streams the loop actually reads. -/
def readHeaderLoop : Nat → ByteCursor → LoopSt → Except Err (LoopSt × ByteCursor)
  | 0, _, _ => .error .eof
  | fuel + 1, s, st =>
    match readHeaderString s with
    | .error e => .error e
    | .ok (k, s1) =>
      match readHeaderString s1 with
      | .error e => .error e
      | .ok (v, s2) =>
        match processPair k v st with
        | .error e => .error e
        | .ok st' =>
          if (mapGet st'.props (ascii "teamscore1")).isSome then .ok (st', s2)
          else readHeaderLoop fuel s2 st'

/-- `readHeader` from `reader/header.go`: runs the property loop, then
assembles the typed header from the accumulated property map in the
source's order.  A malformed `playlistcategory` is tolerated (Go's
`strconv.Atoi` returns 0 alongside its error and the value is kept);
every other integer parse failure aborts. -/
def readHeader (s : ByteCursor) : Except Err (Header × ByteCursor) := do
  let (st, s') ← readHeaderLoop (s.data.length + 1) s {}
  let props := st.props
  let gameVersion := mapGetD props (ascii "version")
  let codeVersion ← atoi (mapGetD props (ascii "code"))
  let timestamp ← parseDatetime (mapGetD props (ascii "datetime"))
  let matchType ← atoi (mapGetD props (ascii "matchtype"))
  let mapID ← atoi (mapGetD props (ascii "worldid"))
  let recordingPlayerID := mapGetD props (ascii "recordingplayerid")
  let recordingProfileID := mapGetD props (ascii "recordingprofileid")
  let additionalTags := mapGetD props (ascii "additionaltags")
  let gameMode ← atoi (mapGetD props (ascii "gamemodeid"))
  let roundsPerMatch ← atoi (mapGetD props (ascii "roundspermatch"))
  let roundsPerMatchOvertime ← atoi (mapGetD props (ascii "roundspermatchovertime"))
  let roundNumber ← atoi (mapGetD props (ascii "roundnumber"))
  let overtimeRoundNumber ← atoi (mapGetD props (ascii "overtimeroundnumber"))
  let teamName0 := mapGetD props (ascii "teamname0")
  let teamName1 := mapGetD props (ascii "teamname1")
  let playlistCategory : Int :=
    match atoi (mapGetD props (ascii "playlistcategory")) with
    | .ok n => n
    | .error _ => 0
  let matchID := mapGetD props (ascii "id")
  let teamScore0 ← atoi (mapGetD props (ascii "teamscore0"))
  let teamScore1 ← atoi (mapGetD props (ascii "teamscore1"))
  pure ({ gameVersion, codeVersion, timestamp, matchType, map := mapID, gameMode,
          recordingPlayerID, recordingProfileID, additionalTags,
          roundsPerMatch, roundsPerMatchOvertime, roundNumber, overtimeRoundNumber,
          playlistCategory, matchID,
          teams := (⟨teamName0, teamScore0⟩, ⟨teamName1, teamScore1⟩),
          gmSettings := st.gmSettings, players := st.players }, s')

/-- The byte values of the literal `dissect`. -/
def dissectBytes : List Nat := ascii "dissect"

/-- The zero-skipping scan of `readHeaderMagic` (`reader/header.go` lines
29–51): reads one byte at a time, `n` counting consecutive zero bytes and
`t` the completed groups of seven, until `t = 2`.  (The Go source resets
`n` to 0 on a nonzero byte only when `n > 0`; since it is already 0
otherwise, the branch is written uniformly here.) -/
def magicScan (te : Option Err) : List Nat → Nat → Nat → Except Err ByteCursor
  | data, n, t =>
    if t = 2 then .ok ⟨data, te⟩
    else
      match data with
      | [] => .error (te.getD .eof)
      | b :: rest =>
        if b = 0 then
          if n ≠ 6 then magicScan te rest (n + 1) t
          else magicScan te rest 0 (t + 1)
        else magicScan te rest 0 t

/-- `readHeaderMagic` from `reader/header.go`: reads 7 bytes, requires the
literal `dissect` (else `ErrInvalidFile`), then runs the zero-run scan. -/
def readHeaderMagic (s : ByteCursor) : Except Err ByteCursor :=
  match readBytes 7 s with
  | .error e => .error e
  | .ok (b, s1) =>
    if b ≠ dissectBytes then .error .invalidFile
    else magicScan s1.tailErr s1.data 0 0

/-- The 6-byte team-marker pattern of `readPlayers`. -/
def indicator : List Nat := [0x22, 0x95, 0x1C, 0x16, 0x50, 0x08]

/-- The 4-byte profile-id marker of `readPlayers`. -/
def profileIDIndicator : List Nat := [0x8A, 0x50, 0x9B, 0xD0]

/-- The 6-byte unknown marker of `readPlayers`. -/
def unknownIndicator : List Nat := [0x22, 0xEE, 0xD4, 0x45, 0xC8, 0x08]

/-- The minimal player appended by the scanner when no existing entry
matches the scanned username (the Go literal
`types.Player{ProfileID: …, Username: …, TeamIndex: …}`). -/
def newScanPlayer (un pid : List Nat) (ti : Int) : Player :=
  { username := un, profileID := pid, teamIndex := ti }

/-- The found-flag search of `readPlayers` (`reader/header.go` lines
263–271): overwrite the profile id and team index of the first player
whose username matches, returning `none` when no player matches. -/
def enrich (un pid : List Nat) (ti : Int) : List Player → Option (List Player)
  | [] => none
  | p :: rest =>
    if p.username == un then
      some ({ p with profileID := pid, teamIndex := ti } :: rest)
    else (enrich un pid ti rest).map (p :: ·)

/-- The reconciliation step of one scanner iteration (`reader/header.go`
lines 258–274): enrich the first username match in place, or append the
minimal scanned player when there is none. -/
def reconcile (ps : List Player) (un pid : List Nat) (ti : Int) : List Player :=
  match enrich un pid ti ps with
  | some ps' => ps'
  | none => ps ++ [newScanPlayer un pid ti]

/-- The `readPlayers` scan loop (`reader/header.go` lines 230–284), with
the `for i < 10` counter as fuel.  The accumulator `cmp` records the
`(username, 30 unknown bytes)` pairs pushed to the diagnostic collector
(an external collaborator that never fails the decode). -/
def readPlayersLoop :
    Nat → ByteCursor → List Player → List (List Nat × List Nat) →
    Except Err (List Player × ByteCursor × List (List Nat × List Nat))
  | 0, s, ps, cmp => .ok (ps, s, cmp)
  | fuel + 1, s, ps, cmp =>
    match seek indicator s with
    | .error .patternNotFound => .ok (ps, ⟨[], s.tailErr⟩, cmp)
    | .error e => .error e
    | .ok s1 =>
      match readInt s1 with
      | .error e => .error e
      | .ok (ti, s2) =>
        match readBytes 12 s2 with
        | .error e => .error e
        | .ok (_, s3) =>
          match readString s3 with
          | .error e => .error e
          | .ok (un, s4) =>
            match seek profileIDIndicator s4 with
            | .error e => .error e
            | .ok s5 =>
              match readString s5 with
              | .error e => .error e
              | .ok (pid, s6) =>
                match seek unknownIndicator s6 with
                | .error e => .error e
                | .ok s7 =>
                  match readBytes 30 s7 with
                  | .error e => .error e
                  | .ok (unknown, s8) =>
                    readPlayersLoop fuel s8
                      (reconcile ps un pid (if ti % 2 == 0 then 1 else 0))
                      (cmp ++ [(un, unknown)])

/-- `readPlayers` from `reader/header.go`: at most ten scanner iterations
over the stream left by the header decoder, starting from the
header-derived player list. -/
def readPlayers (s : ByteCursor) (ps : List Player) :
    Except Err (List Player × ByteCursor × List (List Nat × List Nat)) :=
  readPlayersLoop 10 s ps []

/-- The full decode: magic validation, header decoding, then the player
scanner mutating the header's player list. -/
def decode (s : ByteCursor) : Except Err Header := do
  let s1 ← readHeaderMagic s
  let (h, s2) ← readHeader s1
  let (ps, _, _) ← readPlayers s2 h.players
  pure { h with players := ps }

/-! ## Concrete fixtures

Byte streams built in the header string format, used to evaluate the
decoder on explicit inputs. -/

/-- `n` zero bytes. -/
def z (n : Nat) : List Nat := List.replicate n 0

/-- Encoding of one key/value pair in the header string format. -/
def encPair (k v : List Nat) : List Nat :=
  k.length :: strSep ++ k ++ v.length :: strSep ++ v

/-- Encoding of a list of key/value pairs. -/
def encodePairs (l : List (List Nat × List Nat)) : List Nat :=
  (l.map fun kv => encPair kv.1 kv.2).flatten

/-- The top-level properties that precede any player record in the
fixture streams (everything required except `playlistcategory`, `id` and
the team scores). -/
def corePairsPre : List (List Nat × List Nat) :=
  [ (ascii "version", ascii "Y8S1"),
    (ascii "code", ascii "100"),
    (ascii "datetime", ascii "2023-01-02-03-04-05"),
    (ascii "matchtype", ascii "2"),
    (ascii "worldid", ascii "3"),
    (ascii "recordingplayerid", ascii "RP"),
    (ascii "recordingprofileid", ascii "RQ"),
    (ascii "additionaltags", ascii "tags"),
    (ascii "gamemodeid", ascii "4"),
    (ascii "roundspermatch", ascii "9"),
    (ascii "roundspermatchovertime", ascii "3"),
    (ascii "roundnumber", ascii "1"),
    (ascii "overtimeroundnumber", ascii "0"),
    (ascii "teamname0", ascii "Alpha"),
    (ascii "teamname1", ascii "Beta"),
    (ascii "gmsetting", ascii "7") ]

/-- The closing top-level properties of the fixture streams; the `id` key
also terminates an in-progress player record, and the loop stops at the
`teamscore1` pair. -/
def corePairsPost : List (List Nat × List Nat) :=
  [ (ascii "playlistcategory", ascii "5"),
    (ascii "id", ascii "M1"),
    (ascii "teamscore0", ascii "3"),
    (ascii "teamscore1", ascii "1") ]

/-- A complete header pair list with no player records. -/
def basePairs : List (List Nat × List Nat) := corePairsPre ++ corePairsPost

/-- `basePairs` with the value of key `k` replaced by `v`. -/
def basePairsWith (k v : List Nat) : List (List Nat × List Nat) :=
  basePairs.map fun kv => if kv.1 == k then (kv.1, v) else kv

/-- The header produced by decoding `basePairs`. -/
def hBase : Header :=
  { gameVersion := ascii "Y8S1", codeVersion := 100,
    timestamp := (2023, 1, 2, 3, 4, 5), matchType := 2, map := 3,
    gameMode := 4, recordingPlayerID := ascii "RP",
    recordingProfileID := ascii "RQ", additionalTags := ascii "tags",
    roundsPerMatch := 9, roundsPerMatchOvertime := 3, roundNumber := 1,
    overtimeRoundNumber := 0, playlistCategory := 5, matchID := ascii "M1",
    teams := (⟨ascii "Alpha", 3⟩, ⟨ascii "Beta", 1⟩),
    gmSettings := [7], players := [] }

/-- Two adjacent player sub-records, each delimited by its `playerid`
key. -/
def playerPairsTwo : List (List Nat × List Nat) :=
  [ (ascii "playerid", ascii "A1"),
    (ascii "playername", ascii "NA"),
    (ascii "team", ascii "0"),
    (ascii "playerid", ascii "B2"),
    (ascii "playername", ascii "NB"),
    (ascii "team", ascii "1") ]

/-- The two players produced by `playerPairsTwo`. -/
def playerA : Player := { id := ascii "A1", username := ascii "NA", teamIndex := 0 }

/-- Second of the two players produced by `playerPairsTwo`. -/
def playerB : Player := { id := ascii "B2", username := ascii "NB", teamIndex := 1 }

/-- Two player sub-records sharing the same `playername`. -/
def playerPairsDup : List (List Nat × List Nat) :=
  [ (ascii "playerid", ascii "P1"),
    (ascii "playername", ascii "AA"),
    (ascii "playerid", ascii "P2"),
    (ascii "playername", ascii "AA") ]

/-- One player sub-record whose `team` value is 5. -/
def playerPairsTeam5 : List (List Nat × List Nat) :=
  [ (ascii "playerid", ascii "PX"),
    (ascii "playername", ascii "AA"),
    (ascii "team", ascii "5") ]

/-- A whole-file stream (magic, versioning zeros, header) whose header
region holds two player records with the same username and whose
post-header region is empty. -/
def exDupUser : ByteCursor :=
  ⟨dissectBytes ++ z 14 ++ encodePairs (corePairsPre ++ playerPairsDup ++ corePairsPost), none⟩

/-- A whole-file stream whose single header player has team value 5 and
whose post-header region is empty. -/
def exTeam5 : ByteCursor :=
  ⟨dissectBytes ++ z 14 ++ encodePairs (corePairsPre ++ playerPairsTeam5 ++ corePairsPost), none⟩

/-! ## Properties of the reconciliation step -/

/-- Index of the first player whose username is `un`, if any — the index
at which the found-flag loop of `readPlayers` stops. -/
def firstMatchIdx (un : List Nat) : List Player → Option Nat
  | [] => none
  | p :: rest => if p.username == un then some 0 else (firstMatchIdx un rest).map (· + 1)

theorem enrich_eq_none (un pid : List Nat) (ti : Int) :
    ∀ ps : List Player, enrich un pid ti ps = none ↔ ∀ p ∈ ps, p.username ≠ un := by
  intro ps
  induction ps with
  | nil => simp [enrich]
  | cons p rest ih =>
    simp only [enrich]
    cases hm : p.username == un with
    | true =>
      simp only [if_true, List.mem_cons, ne_eq]
      constructor
      · intro h; exact absurd h (by simp)
      · intro hall
        exact absurd (beq_iff_eq.mp hm) (hall p (Or.inl rfl))
    | false =>
      simp only [Bool.false_eq_true, if_false, Option.map_eq_none', ih, List.mem_cons, ne_eq]
      constructor
      · rintro hall q (rfl | hq)
        · exact fun hc => by simp [hc] at hm
        · exact hall q hq
      · intro hall q hq
        exact hall q (Or.inr hq)

theorem enrich_some_length (un pid : List Nat) (ti : Int) :
    ∀ ps ps' : List Player, enrich un pid ti ps = some ps' → ps'.length = ps.length := by
  intro ps
  induction ps with
  | nil => simp [enrich]
  | cons p rest ih =>
    intro ps' h
    simp only [enrich] at h
    cases hm : p.username == un with
    | true =>
      rw [hm] at h
      simp only [if_true] at h
      injection h with h2
      subst h2
      simp
    | false =>
      rw [hm] at h
      simp only [Bool.false_eq_true, if_false] at h
      rcases Option.map_eq_some'.mp h with ⟨q, hq, hq2⟩
      subst hq2
      simp [ih q hq]

theorem enrich_some_map_username (un pid : List Nat) (ti : Int) :
    ∀ ps ps' : List Player, enrich un pid ti ps = some ps' →
      ps'.map Player.username = ps.map Player.username := by
  intro ps
  induction ps with
  | nil => simp [enrich]
  | cons p rest ih =>
    intro ps' h
    simp only [enrich] at h
    cases hm : p.username == un with
    | true =>
      rw [hm] at h
      simp only [if_true] at h
      injection h with h2
      subst h2
      simp only [List.map_cons]
    | false =>
      rw [hm] at h
      simp only [Bool.false_eq_true, if_false] at h
      rcases Option.map_eq_some'.mp h with ⟨q, hq, hq2⟩
      subst hq2
      simp [ih q hq]

theorem enrich_some_mem (un pid : List Nat) (ti : Int) :
    ∀ ps ps' : List Player, enrich un pid ti ps = some ps' →
      ∀ q ∈ ps', q ∈ ps ∨ q.teamIndex = ti := by
  intro ps
  induction ps with
  | nil => simp [enrich]
  | cons p rest ih =>
    intro ps' h q hq
    simp only [enrich] at h
    cases hm : p.username == un with
    | true =>
      rw [hm] at h
      simp only [if_true] at h
      injection h with h2
      subst h2
      rcases List.mem_cons.1 hq with rfl | hq'
      · exact Or.inr rfl
      · exact Or.inl (List.mem_cons.2 (Or.inr hq'))
    | false =>
      rw [hm] at h
      simp only [Bool.false_eq_true, if_false] at h
      rcases Option.map_eq_some'.mp h with ⟨l, hl, hl2⟩
      subst hl2
      rcases List.mem_cons.1 hq with rfl | hq'
      · exact Or.inl (List.mem_cons.2 (Or.inl rfl))
      · rcases ih l hl q hq' with h1 | h2
        · exact Or.inl (List.mem_cons.2 (Or.inr h1))
        · exact Or.inr h2

theorem reconcile_length_le (ps : List Player) (un pid : List Nat) (ti : Int) :
    (reconcile ps un pid ti).length ≤ ps.length + 1 := by
  unfold reconcile
  cases h : enrich un pid ti ps with
  | none => simp
  | some ps' => simp [enrich_some_length un pid ti ps ps' h]

theorem reconcile_mem (ps : List Player) (un pid : List Nat) (ti : Int) :
    ∀ q ∈ reconcile ps un pid ti, q ∈ ps ∨ q.teamIndex = ti := by
  intro q hq
  unfold reconcile at hq
  cases h : enrich un pid ti ps with
  | none =>
    rw [h] at hq
    rcases List.mem_append.1 hq with h1 | h2
    · exact Or.inl h1
    · simp only [List.mem_singleton] at h2
      subst h2
      exact Or.inr rfl
  | some ps' =>
    rw [h] at hq
    exact enrich_some_mem un pid ti ps ps' h q hq

theorem reconcile_nodup (ps : List Player) (un pid : List Nat) (ti : Int)
    (h : (ps.map Player.username).Nodup) :
    ((reconcile ps un pid ti).map Player.username).Nodup := by
  unfold reconcile
  cases he : enrich un pid ti ps with
  | some ps' => rw [enrich_some_map_username un pid ti ps ps' he]; exact h
  | none =>
    have hnot : ∀ p ∈ ps, p.username ≠ un := (enrich_eq_none un pid ti ps).1 he
    simp only [List.map_append, List.map_singleton, newScanPlayer]
    rw [List.nodup_append]
    refine ⟨h, List.nodup_singleton _, ?_⟩
    intro a ha
    simp only [List.mem_map] at ha
    obtain ⟨p, hp, rfl⟩ := ha
    simp only [List.mem_singleton]
    intro hcontra
    exact hnot p hp (by simpa using hcontra)

/-! ## Properties of the scanner loop -/

theorem readPlayersLoop_ok_nodup :
    ∀ (fuel : Nat) (s : ByteCursor) (ps : List Player)
      (cmp : List (List Nat × List Nat)) out,
      readPlayersLoop fuel s ps cmp = .ok out →
      (ps.map Player.username).Nodup → (out.1.map Player.username).Nodup := by
  intro fuel
  induction fuel with
  | zero =>
    intro s ps cmp out h hnd
    simp only [readPlayersLoop] at h
    injection h with h2
    subst h2
    exact hnd
  | succ fuel ih =>
    intro s ps cmp out h hnd
    rw [readPlayersLoop] at h
    split at h
    · injection h with h2; subst h2; exact hnd
    · exact absurd h (by simp)
    · split at h
      · exact absurd h (by simp)
      · split at h
        · exact absurd h (by simp)
        · split at h
          · exact absurd h (by simp)
          · split at h
            · exact absurd h (by simp)
            · split at h
              · exact absurd h (by simp)
              · split at h
                · exact absurd h (by simp)
                · split at h
                  · exact absurd h (by simp)
                  · exact ih _ _ _ _ h (reconcile_nodup _ _ _ _ hnd)

theorem readPlayersLoop_ok_mem :
    ∀ (fuel : Nat) (s : ByteCursor) (ps : List Player)
      (cmp : List (List Nat × List Nat)) out,
      readPlayersLoop fuel s ps cmp = .ok out →
      ∀ p ∈ out.1, p ∈ ps ∨ p.teamIndex = 0 ∨ p.teamIndex = 1 := by
  intro fuel
  induction fuel with
  | zero =>
    intro s ps cmp out h p hp
    simp only [readPlayersLoop] at h
    injection h with h2
    subst h2
    exact Or.inl hp
  | succ fuel ih =>
    intro s ps cmp out h p hp
    rw [readPlayersLoop] at h
    split at h
    · injection h with h2; subst h2; exact Or.inl hp
    · exact absurd h (by simp)
    · split at h
      · exact absurd h (by simp)
      · split at h
        · exact absurd h (by simp)
        · split at h
          · exact absurd h (by simp)
          · split at h
            · exact absurd h (by simp)
            · split at h
              · exact absurd h (by simp)
              · split at h
                · exact absurd h (by simp)
                · split at h
                  · exact absurd h (by simp)
                  · rcases ih _ _ _ _ h p hp with hmem | hti
                    · rcases reconcile_mem _ _ _ _ p hmem with h1 | h2
                      · exact Or.inl h1
                      · refine Or.inr ?_
                        rw [h2]
                        split
                        · simp
                        · simp
                    · exact Or.inr hti

theorem readPlayersLoop_ok_counts :
    ∀ (fuel : Nat) (s : ByteCursor) (ps : List Player)
      (cmp : List (List Nat × List Nat)) out,
      readPlayersLoop fuel s ps cmp = .ok out →
      out.1.length ≤ ps.length + fuel ∧ out.2.2.length ≤ cmp.length + fuel := by
  intro fuel
  induction fuel with
  | zero =>
    intro s ps cmp out h
    simp only [readPlayersLoop] at h
    injection h with h2
    subst h2
    exact ⟨Nat.le_add_right _ _, Nat.le_add_right _ _⟩
  | succ fuel ih =>
    intro s ps cmp out h
    rw [readPlayersLoop] at h
    split at h
    · injection h with h2; subst h2
      exact ⟨Nat.le_add_right _ _, Nat.le_add_right _ _⟩
    · exact absurd h (by simp)
    · split at h
      · exact absurd h (by simp)
      · split at h
        · exact absurd h (by simp)
        · split at h
          · exact absurd h (by simp)
          · split at h
            · exact absurd h (by simp)
            · split at h
              · exact absurd h (by simp)
              · split at h
                · exact absurd h (by simp)
                · split at h
                  · exact absurd h (by simp)
                  · obtain ⟨h1, h2⟩ := ih _ _ _ _ h
                    simp only [List.length_append, List.length_singleton] at h2
                    have h3 : out.1.length ≤ ps.length + 1 + fuel :=
                      le_trans h1 (Nat.add_le_add_right (reconcile_length_le _ _ _ _) fuel)
                    exact ⟨by omega, by omega⟩

theorem firstMatchIdx_none (un : List Nat) :
    ∀ ps : List Player, firstMatchIdx un ps = none ↔ ∀ p ∈ ps, p.username ≠ un := by
  intro ps
  induction ps with
  | nil => simp [firstMatchIdx]
  | cons p rest ih =>
    simp only [firstMatchIdx]
    cases hm : p.username == un with
    | true =>
      simp only [if_true, List.mem_cons, ne_eq]
      constructor
      · intro h; exact absurd h (by simp)
      · intro hall
        exact absurd (beq_iff_eq.mp hm) (hall p (Or.inl rfl))
    | false =>
      simp only [Bool.false_eq_true, if_false, Option.map_eq_none', ih, List.mem_cons, ne_eq]
      constructor
      · rintro hall q (rfl | hq)
        · exact fun hc => by simp [hc] at hm
        · exact hall q hq
      · intro hall q hq
        exact hall q (Or.inr hq)

theorem enrich_of_firstMatchIdx_some (un pid : List Nat) (ti : Int) :
    ∀ (ps : List Player) (i : Nat), firstMatchIdx un ps = some i →
      ∃ ps', enrich un pid ti ps = some ps' ∧
        ps'.length = ps.length ∧
        ps'[i]? = (ps[i]?).map (fun p => { p with profileID := pid, teamIndex := ti }) ∧
        ∀ j, j ≠ i → ps'[j]? = ps[j]? := by
  intro ps
  induction ps with
  | nil => simp [firstMatchIdx]
  | cons p rest ih =>
    intro i h
    simp only [firstMatchIdx] at h
    cases hm : p.username == un with
    | true =>
      rw [hm] at h
      simp only [if_true] at h
      injection h with h2
      subst h2
      refine ⟨{ p with profileID := pid, teamIndex := ti } :: rest, ?_, by simp, by simp, ?_⟩
      · simp [enrich, hm]
      · intro j hj
        cases j with
        | zero => exact absurd rfl hj
        | succ j' => simp
    | false =>
      rw [hm] at h
      simp only [Bool.false_eq_true, if_false] at h
      rcases Option.map_eq_some'.mp h with ⟨i', hi', rfl⟩
      rcases ih i' hi' with ⟨l, hl, hlen, hidx, hframe⟩
      refine ⟨p :: l, ?_, by simp [hlen], by simpa using hidx, ?_⟩
      · simp [enrich, hm, hl]
      · intro j hj
        cases j with
        | zero => simp
        | succ j' =>
          have : j' ≠ i' := fun hc => hj (by rw [hc])
          simpa using hframe j' this

/-! ## A run-length characterization of the magic zero scan -/

/-- Groups of seven consecutive zero bytes in `l`, given `z` zero bytes
already pending: the sum over the maximal zero runs of `l` (the first one
extended by `z`) of (run length / 7). -/
def gsum : List Nat → Nat → Nat
  | [], z => z / 7
  | b :: rest, z => if b = 0 then gsum rest (z + 1) else z / 7 + gsum rest 0

/-- Groups of seven consecutive zero bytes completed within `l`. -/
def groupSum (l : List Nat) : Nat := gsum l 0

/-- The length of the shortest prefix of `l` that completes two groups of
seven consecutive zero bytes, if there is one. -/
def minStop (l : List Nat) : Option Nat :=
  (List.range (l.length + 1)).find? (fun p => groupSum (l.take p) == 2)

/-- Lengths of the maximal zero runs of `l`, with `c` zeros pending. -/
def zeroRunLens : List Nat → Nat → List Nat
  | [], c => if c = 0 then [] else [c]
  | b :: rest, c =>
    if b = 0 then zeroRunLens rest (c + 1)
    else if c = 0 then zeroRunLens rest 0 else c :: zeroRunLens rest 0

/-- Number of maximal zero runs of `l` whose length is exactly seven —
the reading of the specification's "separate runs of exactly 7 zero
bytes". -/
def exactSevenRuns (l : List Nat) : Nat :=
  ((zeroRunLens l 0).filter (· == 7)).length

theorem gsum_add_seven : ∀ (l : List Nat) (s : Nat), gsum l (s + 7) = 1 + gsum l s := by
  intro l
  induction l with
  | nil =>
    intro s
    simp only [gsum]
    omega
  | cons b rest ih =>
    intro s
    by_cases hb : b = 0
    · simp only [gsum, hb, if_true]
      have := ih (s + 1)
      rw [show s + 7 + 1 = s + 1 + 7 by omega]
      exact this
    · simp only [gsum, hb, if_false]
      have : (s + 7) / 7 = s / 7 + 1 := Nat.add_div_right s (by norm_num)
      omega

theorem find_range_succ (f : Nat → Bool) (n : Nat) :
    (List.range (n + 1)).find? f =
      if f 0 then some 0 else ((List.range n).find? fun p => f (p + 1)).map (· + 1) := by
  rw [List.range_succ_eq_map]
  rw [List.find?_cons]
  by_cases h : f 0
  · simp [h]
  · simp only [h, if_false, Bool.false_eq_true]
    rw [List.find?_map]
    congr 1

theorem find_congr_pointwise {α : Type} (f g : α → Bool) (h : ∀ a, f a = g a) :
    ∀ l : List α, l.find? f = l.find? g := by
  intro l
  induction l with
  | nil => rfl
  | cons a l ih => rw [List.find?_cons, List.find?_cons, h a, ih]

theorem elim_congr_opt {β : Type} (o o' : Option Nat) (d : β) (f g : Nat → β)
    (ho : o = o') (hf : ∀ x, f x = g x) : o.elim d f = o'.elim d g := by
  subst ho
  cases o <;> simp [hf]

theorem elim_map_succ {β : Type} (o : Option Nat) (d : β) (f : Nat → β) :
    (o.map (· + 1)).elim d f = o.elim d (fun x => f (x + 1)) := by
  cases o <;> rfl

theorem magicScan_eq_minStop :
    ∀ (data : List Nat) (te : Option Err) (n t : Nat), n ≤ 6 → t ≤ 2 →
      magicScan te data n t =
        ((List.range (data.length + 1)).find? (fun p => t + gsum (data.take p) n == 2)).elim
          (.error (te.getD .eof)) (fun p => .ok ⟨data.drop p, te⟩) := by
  intro data
  induction data with
  | nil =>
    intro te n t hn ht
    have hn7 : n / 7 = 0 := Nat.div_eq_of_lt (by omega)
    rw [magicScan]
    simp only [List.length_nil, List.take_nil, List.drop_nil]
    rw [show List.range (0 + 1) = [0] by simp [List.range_succ]]
    rw [List.find?_cons]
    simp only [gsum, hn7, Nat.add_zero]
    by_cases h2 : t = 2
    · subst h2
      simp
    · have hb : (t == 2) = false := by simp [h2]
      simp [h2, hb, List.find?]
  | cons b rest ih =>
    intro te n t hn ht
    have hn7 : n / 7 = 0 := Nat.div_eq_of_lt (by omega)
    rw [magicScan]
    simp only [List.length_cons]
    rw [find_range_succ]
    have hf0 : (t + gsum ((b :: rest).take 0) n == 2) = (t == 2) := by
      simp only [List.take_zero, gsum, hn7, Nat.add_zero]
    rw [hf0]
    by_cases h2 : t = 2
    · simp [h2]
    · have hb2 : (t == 2) = false := by simp [h2]
      simp only [hb2, Bool.false_eq_true, if_false, if_neg h2]
      rw [elim_map_succ]
      by_cases hb : b = 0
      · subst hb
        simp only [if_true]
        by_cases hn6 : n = 6
        · subst hn6
          simp only [if_neg (by omega : ¬(6 : Nat) ≠ 6)]
          rw [ih te 0 (t + 1) (by omega) (by omega)]
          refine elim_congr_opt _ _ _ _ _ ?_ ?_
          · refine find_congr_pointwise _ _ ?_ _
            intro a
            simp only [List.take_succ_cons, gsum, if_true]
            have h7 : gsum (rest.take a) (6 + 1) = 1 + gsum (rest.take a) 0 := by
              have := gsum_add_seven (rest.take a) 0
              simpa using this
            rw [h7]
            congr 1
            omega
          · intro x
            simp
        · simp only [if_pos hn6]
          rw [ih te (n + 1) t (by omega) (by omega)]
          refine elim_congr_opt _ _ _ _ _ ?_ ?_
          · refine find_congr_pointwise _ _ ?_ _
            intro a
            simp only [List.take_succ_cons, gsum, if_true]
          · intro x
            simp
      · simp only [hb, if_false]
        rw [ih te 0 t (by omega) (by omega)]
        refine elim_congr_opt _ _ _ _ _ ?_ ?_
        · refine find_congr_pointwise _ _ ?_ _
          intro a
          simp only [List.take_succ_cons, gsum, hb, if_false, hn7]
          rw [show (0 : Nat) + gsum (rest.take a) 0 = gsum (rest.take a) 0 by omega]
        · intro x
          simp

/-! ## Claim theorems -/

/-- C10: the reconciliation step of the scanner mutates at most one
existing entry per scanned record — when some entry matches the scanned
username, only the first (lowest-index) matching player has its profile id
and team index overwritten, every other index is unchanged and the length
is unchanged; when no entry matches, the original list is kept intact and
the minimal scanned player is appended. -/
theorem reconcileFrameEffect (ps : List Player) (un pid : List Nat) (ti : Int) :
    (∀ i, firstMatchIdx un ps = some i →
      (reconcile ps un pid ti).length = ps.length ∧
      (reconcile ps un pid ti)[i]? =
        (ps[i]?).map (fun p => { p with profileID := pid, teamIndex := ti }) ∧
      ∀ j, j ≠ i → (reconcile ps un pid ti)[j]? = ps[j]?) ∧
    (firstMatchIdx un ps = none →
      reconcile ps un pid ti = ps ++ [newScanPlayer un pid ti]) := by
  constructor
  · intro i hi
    rcases enrich_of_firstMatchIdx_some un pid ti ps i hi with ⟨ps', hs, hlen, hidx, hframe⟩
    unfold reconcile
    rw [hs]
    exact ⟨hlen, hidx, hframe⟩
  · intro hn
    unfold reconcile
    rw [(enrich_eq_none un pid ti ps).2 ((firstMatchIdx_none un ps).1 hn)]

/-- A list with two entries sharing the username `AA`, used to exercise
the reconciliation frame effect. -/
def psW : List Player :=
  [playerA, { username := ascii "AA" }, { username := ascii "AA", id := ascii "P2" }]

/-- Witness for C10 at a concrete list: only index 1 (the first `AA`
entry) is overwritten; index 2, which has the same username, is laid
untouched. -/
theorem reconcileFrameEffectWitness :
    (reconcile psW (ascii "AA") (ascii "p9") 1).length = psW.length ∧
    (reconcile psW (ascii "AA") (ascii "p9") 1)[2]? = psW[2]? ∧
    (reconcile psW (ascii "AA") (ascii "p9") 1)[0]? = psW[0]? := by
  have h := (reconcileFrameEffect psW (ascii "AA") (ascii "p9") 1).1 1 (by decide)
  exact ⟨h.1, h.2.2 2 (by decide), h.2.2 0 (by decide)⟩

/-- C1 counterexample: a successfully decoded input whose header region
holds two player records with the same playername; after the full decode
(the scanner finds no records) the player list still holds two entries
with the same username, so the claimed invariant fails. -/
theorem scanPhaseDuplicateUsernames :
    (decode exDupUser).map (fun h => h.players.map Player.username) =
      .ok [ascii "AA", ascii "AA"] ∧
    ¬ ([ascii "AA", ascii "AA"] : List (List Nat)).Nodup := by
  constructor
  · decide
  · decide

/-- C1 (amended): the scanner phase itself never introduces a duplicate
username — a scanned record whose username matches an existing entry
enriches the first match in place without changing the length — so
usernames distinct after the header phase stay distinct after the
scanner; duplicates already present in the header-derived list, however,
persist. -/
theorem scannerPreservesDistinctUsernames :
    (∀ (s : ByteCursor) (ps : List Player) out,
       readPlayers s ps = .ok out → (ps.map Player.username).Nodup →
       (out.1.map Player.username).Nodup) ∧
    (∀ (ps : List Player) (un pid : List Nat) (ti : Int),
       (∃ p ∈ ps, p.username = un) → (reconcile ps un pid ti).length = ps.length) := by
  constructor
  · intro s ps out h hnd
    exact readPlayersLoop_ok_nodup 10 s ps [] out h hnd
  · rintro ps un pid ti ⟨p, hp, hpu⟩
    unfold reconcile
    cases he : enrich un pid ti ps with
    | some ps' => exact enrich_some_length un pid ti ps ps' he
    | none => exact absurd hpu ((enrich_eq_none un pid ti ps).1 he p hp)

/-- Witness for C1 at a concrete run: an empty post-header region keeps a
distinct one-player list distinct, and reconciling a matching scanned
record keeps the length at one. -/
theorem scannerPreservesDistinctUsernamesWitness :
    (([playerA] : List Player).map Player.username).Nodup ∧
    (reconcile [playerA] (ascii "NA") (ascii "p9") 1).length = 1 := by
  constructor
  · exact scannerPreservesDistinctUsernames.1 ⟨[], none⟩ [playerA]
      ([playerA], ⟨[], none⟩, []) (by decide) (by decide)
  · exact scannerPreservesDistinctUsernames.2 [playerA] (ascii "NA") (ascii "p9") 1
      ⟨playerA, by decide, by decide⟩

/-- C2 counterexample: a successfully decoded input whose single header
player record carries `team = 5`; the decoder stores the parsed integer
with no range check and the scanner touches no entry, so the resulting
player list has team index 5, neither 0 nor 1. -/
theorem headerTeamIndexOutOfRange :
    (decode exTeam5).map (fun h => h.players.map Player.teamIndex) = .ok [5] ∧
    ¬ ((5 : Int) = 0 ∨ (5 : Int) = 1) := by
  constructor
  · decide
  · decide

/-- C2 (amended): every player of the post-scanner list either was
created or enriched by the scanner — and then its team index is 0 or 1,
the parity of the team indicator — or is an entry of the header-derived
list carried over unchanged, whose team index is whatever integer the
header's `team` value parsed to. -/
theorem scannerTeamIndexZeroOrOne :
    ∀ (s : ByteCursor) (ps : List Player) out,
      readPlayers s ps = .ok out →
      ∀ p ∈ out.1, p.teamIndex = 0 ∨ p.teamIndex = 1 ∨ p ∈ ps := by
  intro s ps out h p hp
  rcases readPlayersLoop_ok_mem 10 s ps [] out h p hp with h1 | h2 | h3
  · exact Or.inr (Or.inr h1)
  · exact Or.inl h2
  · exact Or.inr (Or.inl h3)

/-- Witness for C2 at a concrete run with an empty post-header region. -/
theorem scannerTeamIndexZeroOrOneWitness :
    playerA.teamIndex = 0 ∨ playerA.teamIndex = 1 ∨ playerA ∈ ([playerA] : List Player) := by
  exact scannerTeamIndexZeroOrOne ⟨[], none⟩ [playerA] ([playerA], ⟨[], none⟩, [])
    (by decide) playerA (by decide)

/-- C4: on key `playlistcategory` or `id` while a player record is in
progress, the pair body first finalizes the in-progress player (appending
it), leaves the player-record mode, and then records the same key/value
pair as a normal top-level property — finalize-then-record, with the
current player untouched by the recorded pair. -/
theorem playerTerminatorFinalizeThenRecord :
    ∀ (st : LoopSt) (k v : List Nat),
      st.playerData = true →
      (k = ascii "playlistcategory" ∨ k = ascii "id") →
      processPair k v st = .ok { st with
        players := st.players ++ [st.currentPlayer],
        playerData := false,
        props := (k, v) :: st.props } := by
  intro st k v hpd hk
  rcases hk with rfl | rfl
  · have e1 : (ascii "playlistcategory" == ascii "playerid") = false := by decide
    have e2 : (ascii "playlistcategory" == ascii "playlistcategory") = true := by decide
    have e3 : (ascii "playlistcategory" != ascii "gmsetting") = true := by decide
    simp [processPair, hpd, e1, e2, e3]
  · have e1 : (ascii "id" == ascii "playerid") = false := by decide
    have e2 : (ascii "id" == ascii "playlistcategory") = false := by decide
    have e3 : (ascii "id" == ascii "id") = true := by decide
    have e4 : (ascii "id" != ascii "gmsetting") = true := by decide
    simp [processPair, hpd, e1, e2, e3, e4]

/-- A loop state in player-record mode, used to exercise the player
terminator. -/
def stW : LoopSt :=
  { props := [(ascii "worldid", ascii "3")], gmSettings := [7],
    players := [playerB], currentPlayer := playerA, playerData := true }

/-- Witness for C4 at a concrete state: the `id` pair finalizes the
current player and is recorded as a top-level property. -/
theorem playerTerminatorFinalizeThenRecordWitness :
    processPair (ascii "id") (ascii "M1") stW = .ok { stW with
      players := stW.players ++ [stW.currentPlayer],
      playerData := false,
      props := (ascii "id", ascii "M1") :: stW.props } :=
  playerTerminatorFinalizeThenRecord stW (ascii "id") (ascii "M1") rfl (Or.inr rfl)

/-- C7: on key `playerid` the pair body finalizes any in-progress player,
then starts a fresh player record whose identifier is the pair's value
(all other fields at their zero values, so nothing bleeds over from the
previous record); consequently a header stream with two `playerid`-
delimited player sub-records yields exactly the two corresponding Player
entries, each with its own id, username and team. -/
theorem playeridStartsNewRecord :
    (∀ (st : LoopSt) (v : List Nat),
      processPair (ascii "playerid") v st = .ok { st with
        players := if st.playerData then st.players ++ [st.currentPlayer] else st.players,
        playerData := true,
        currentPlayer := { id := v } }) ∧
    (readHeader ⟨encodePairs (corePairsPre ++ playerPairsTwo ++ corePairsPost), none⟩ =
      .ok ({ hBase with players := [playerA, playerB] }, ⟨[], none⟩)) := by
  constructor
  · intro st v
    have e1 : (ascii "playerid" == ascii "playerid") = true := by decide
    have e2 : (ascii "playerid" == ascii "playlistcategory") = false := by decide
    have e3 : (ascii "playerid" == ascii "id") = false := by decide
    cases hpd : st.playerData <;> simp [processPair, e1, e2, e3, hpd]
  · decide

/-- C5: the header property loop ends exactly in the iteration whose pair
first makes `teamscore1` present in the property map — the check runs
after the pair is processed, so the establishing pair is included and the
bytes after it are left unread — and on a concrete header encoding
`teamscore0=3, teamscore1=1` the decode stops at the `teamscore1` pair
(three trailing bytes stay unconsumed) with team scores 3 and 1. -/
theorem loopStopsAtTeamscore1 :
    (∀ (fuel : Nat) (s s1 s2 : ByteCursor) (st st' : LoopSt) (k v : List Nat),
       readHeaderString s = .ok (k, s1) →
       readHeaderString s1 = .ok (v, s2) →
       processPair k v st = .ok st' →
       ((mapGet st'.props (ascii "teamscore1")).isSome = true →
         readHeaderLoop (fuel + 1) s st = .ok (st', s2)) ∧
       ((mapGet st'.props (ascii "teamscore1")).isSome = false →
         readHeaderLoop (fuel + 1) s st = readHeaderLoop fuel s2 st')) ∧
    (readHeader ⟨encodePairs basePairs ++ [7, 7, 7], none⟩ =
       .ok (hBase, ⟨[7, 7, 7], none⟩)) ∧
    hBase.teams.1.score = 3 ∧ hBase.teams.2.score = 1 := by
  refine ⟨?_, by decide, rfl, rfl⟩
  intro fuel s s1 s2 st st' k v h1 h2 h3
  constructor
  · intro hterm
    simp only [readHeaderLoop, h1, h2, h3, hterm, if_true]
  · intro hterm
    simp only [readHeaderLoop, h1, h2, h3, hterm, Bool.false_eq_true, if_false]

/-- Witness for C5 at a concrete one-pair stream establishing
`teamscore1`: the loop returns right after that pair, leaving the trailing
byte unread. -/
theorem loopStopsAtTeamscore1Witness :
    readHeaderLoop 1 ⟨encPair (ascii "teamscore1") (ascii "1") ++ [9], none⟩ {} =
      .ok ({ props := [(ascii "teamscore1", ascii "1")] }, ⟨[9], none⟩) :=
  (loopStopsAtTeamscore1.1 0 ⟨encPair (ascii "teamscore1") (ascii "1") ++ [9], none⟩
    ⟨1 :: strSep ++ ascii "1" ++ [9], none⟩ ⟨[9], none⟩ {}
    { props := [(ascii "teamscore1", ascii "1")] } (ascii "teamscore1") (ascii "1")
    (by decide) (by decide) (by decide)).1 (by decide)

/-- `basePairs` with the pair for key `k` removed. -/
def basePairsDrop (k : List Nat) : List (List Nat × List Nat) :=
  basePairs.filter fun kv => !(kv.1 == k)

/-- C6: a malformed (or absent) `playlistcategory` value does not abort
decoding — the header still assembles with all other fields intact and
the playlist category at its zero default — whereas a malformed value for
any other required integer field (code, matchtype, worldid, gamemodeid,
the four round counters, the two team scores, or gmsetting) makes
`readHeader` return an error. -/
theorem playlistCategoryNonFatal :
    (readHeader ⟨encodePairs basePairs, none⟩ = .ok (hBase, ⟨[], none⟩)) ∧
    (readHeader ⟨encodePairs (basePairsWith (ascii "playlistcategory") (ascii "x")), none⟩ =
      .ok ({ hBase with playlistCategory := 0 }, ⟨[], none⟩)) ∧
    (readHeader ⟨encodePairs (basePairsDrop (ascii "playlistcategory")), none⟩ =
      .ok ({ hBase with playlistCategory := 0 }, ⟨[], none⟩)) ∧
    ((readHeader ⟨encodePairs (basePairsWith (ascii "code") (ascii "x")), none⟩).isOk = false) ∧
    ((readHeader ⟨encodePairs (basePairsWith (ascii "matchtype") (ascii "x")), none⟩).isOk = false) ∧
    ((readHeader ⟨encodePairs (basePairsWith (ascii "worldid") (ascii "x")), none⟩).isOk = false) ∧
    ((readHeader ⟨encodePairs (basePairsWith (ascii "gamemodeid") (ascii "x")), none⟩).isOk = false) ∧
    ((readHeader ⟨encodePairs (basePairsWith (ascii "roundspermatch") (ascii "x")), none⟩).isOk = false) ∧
    ((readHeader ⟨encodePairs (basePairsWith (ascii "roundspermatchovertime") (ascii "x")), none⟩).isOk = false) ∧
    ((readHeader ⟨encodePairs (basePairsWith (ascii "roundnumber") (ascii "x")), none⟩).isOk = false) ∧
    ((readHeader ⟨encodePairs (basePairsWith (ascii "overtimeroundnumber") (ascii "x")), none⟩).isOk = false) ∧
    ((readHeader ⟨encodePairs (basePairsWith (ascii "teamscore0") (ascii "x")), none⟩).isOk = false) ∧
    ((readHeader ⟨encodePairs (basePairsWith (ascii "teamscore1") (ascii "x")), none⟩).isOk = false) ∧
    ((readHeader ⟨encodePairs (basePairsWith (ascii "gmsetting") (ascii "x")), none⟩).isOk = false) := by
  refine ⟨?_, ?_, ?_, ?_, ?_, ?_, ?_, ?_, ?_, ?_, ?_, ?_, ?_, ?_⟩ <;> decide

/-- Stream that ends (cleanly) right after the team marker. -/
def wD1 : ByteCursor := ⟨indicator, none⟩

/-- Stream that ends after the team indicator integer. -/
def wD2 : ByteCursor := ⟨indicator ++ [1, 0, 0, 0], none⟩

/-- Stream that ends after the 12 discarded bytes. -/
def wD3 : ByteCursor := ⟨indicator ++ [1, 0, 0, 0] ++ z 12, none⟩

/-- Stream whose underlying source fails (code 4) during the profile-id
marker seek. -/
def wD4 : ByteCursor := ⟨indicator ++ [1, 0, 0, 0] ++ z 12 ++ [1, 65], some (.other 4)⟩

/-- Stream that ends right after the profile-id marker. -/
def wD5 : ByteCursor :=
  ⟨indicator ++ [1, 0, 0, 0] ++ z 12 ++ [1, 65] ++ profileIDIndicator, none⟩

/-- Stream whose underlying source fails (code 6) during the unknown
marker seek. -/
def wD6 : ByteCursor :=
  ⟨indicator ++ [1, 0, 0, 0] ++ z 12 ++ [1, 65] ++ profileIDIndicator ++ [1, 66],
   some (.other 6)⟩

/-- Stream that ends right after the unknown marker, before its 30-byte
block. -/
def wD7 : ByteCursor :=
  ⟨indicator ++ [1, 0, 0, 0] ++ z 12 ++ [1, 65] ++ profileIDIndicator ++ [1, 66]
     ++ unknownIndicator, none⟩

/-- C8: the scanner loop runs at most 10 iterations (at most ten pushed
diagnostic records and at most ten appended players); when the team-marker
seek reports the distinguished pattern-not-found signal the loop stops
successfully with the players unchanged; and a failure of the team-marker
seek with any other error, or of any later read, string read or seek
within an iteration, aborts `readPlayers` with that underlying error. -/
theorem scannerLoopBounds :
    (∀ (s : ByteCursor) (ps : List Player) out,
       readPlayers s ps = .ok out →
       out.2.2.length ≤ 10 ∧ out.1.length ≤ ps.length + 10) ∧
    (∀ (fuel : Nat) (s : ByteCursor) ps cmp,
       seek indicator s = .error .patternNotFound →
       readPlayersLoop (fuel + 1) s ps cmp = .ok (ps, ⟨[], s.tailErr⟩, cmp)) ∧
    (∀ (fuel : Nat) (s : ByteCursor) ps cmp e,
       seek indicator s = .error e → e ≠ .patternNotFound →
       readPlayersLoop (fuel + 1) s ps cmp = .error e) ∧
    (∀ (fuel : Nat) (s s1 : ByteCursor) ps cmp e,
       seek indicator s = .ok s1 → readInt s1 = .error e →
       readPlayersLoop (fuel + 1) s ps cmp = .error e) ∧
    (∀ (fuel : Nat) (s s1 s2 : ByteCursor) ps cmp ti e,
       seek indicator s = .ok s1 → readInt s1 = .ok (ti, s2) →
       readBytes 12 s2 = .error e →
       readPlayersLoop (fuel + 1) s ps cmp = .error e) ∧
    (∀ (fuel : Nat) (s s1 s2 s3 : ByteCursor) ps cmp ti b12 e,
       seek indicator s = .ok s1 → readInt s1 = .ok (ti, s2) →
       readBytes 12 s2 = .ok (b12, s3) → readString s3 = .error e →
       readPlayersLoop (fuel + 1) s ps cmp = .error e) ∧
    (∀ (fuel : Nat) (s s1 s2 s3 s4 : ByteCursor) ps cmp ti b12 un e,
       seek indicator s = .ok s1 → readInt s1 = .ok (ti, s2) →
       readBytes 12 s2 = .ok (b12, s3) → readString s3 = .ok (un, s4) →
       seek profileIDIndicator s4 = .error e →
       readPlayersLoop (fuel + 1) s ps cmp = .error e) ∧
    (∀ (fuel : Nat) (s s1 s2 s3 s4 s5 : ByteCursor) ps cmp ti b12 un e,
       seek indicator s = .ok s1 → readInt s1 = .ok (ti, s2) →
       readBytes 12 s2 = .ok (b12, s3) → readString s3 = .ok (un, s4) →
       seek profileIDIndicator s4 = .ok s5 → readString s5 = .error e →
       readPlayersLoop (fuel + 1) s ps cmp = .error e) ∧
    (∀ (fuel : Nat) (s s1 s2 s3 s4 s5 s6 : ByteCursor) ps cmp ti b12 un pid e,
       seek indicator s = .ok s1 → readInt s1 = .ok (ti, s2) →
       readBytes 12 s2 = .ok (b12, s3) → readString s3 = .ok (un, s4) →
       seek profileIDIndicator s4 = .ok s5 → readString s5 = .ok (pid, s6) →
       seek unknownIndicator s6 = .error e →
       readPlayersLoop (fuel + 1) s ps cmp = .error e) ∧
    (∀ (fuel : Nat) (s s1 s2 s3 s4 s5 s6 s7 : ByteCursor) ps cmp ti b12 un pid e,
       seek indicator s = .ok s1 → readInt s1 = .ok (ti, s2) →
       readBytes 12 s2 = .ok (b12, s3) → readString s3 = .ok (un, s4) →
       seek profileIDIndicator s4 = .ok s5 → readString s5 = .ok (pid, s6) →
       seek unknownIndicator s6 = .ok s7 → readBytes 30 s7 = .error e →
       readPlayersLoop (fuel + 1) s ps cmp = .error e) := by
  refine ⟨?_, ?_, ?_, ?_, ?_, ?_, ?_, ?_, ?_, ?_⟩
  · intro s ps out h
    have := readPlayersLoop_ok_counts 10 s ps [] out h
    exact ⟨by simpa using this.2, this.1⟩
  · intro fuel s ps cmp hseek
    rw [readPlayersLoop, hseek]
  · intro fuel s ps cmp e hseek hne
    rw [readPlayersLoop, hseek]
    cases e
    case patternNotFound => exact absurd rfl hne
    all_goals rfl
  · intro fuel s s1 ps cmp e h1 h2
    simp only [readPlayersLoop, h1, h2]
  · intro fuel s s1 s2 ps cmp ti e h1 h2 h3
    simp only [readPlayersLoop, h1, h2, h3]
  · intro fuel s s1 s2 s3 ps cmp ti b12 e h1 h2 h3 h4
    simp only [readPlayersLoop, h1, h2, h3, h4]
  · intro fuel s s1 s2 s3 s4 ps cmp ti b12 un e h1 h2 h3 h4 h5
    simp only [readPlayersLoop, h1, h2, h3, h4, h5]
  · intro fuel s s1 s2 s3 s4 s5 ps cmp ti b12 un e h1 h2 h3 h4 h5 h6
    simp only [readPlayersLoop, h1, h2, h3, h4, h5, h6]
  · intro fuel s s1 s2 s3 s4 s5 s6 ps cmp ti b12 un pid e h1 h2 h3 h4 h5 h6 h7
    simp only [readPlayersLoop, h1, h2, h3, h4, h5, h6, h7]
  · intro fuel s s1 s2 s3 s4 s5 s6 s7 ps cmp ti b12 un pid e h1 h2 h3 h4 h5 h6 h7 h8
    simp only [readPlayersLoop, h1, h2, h3, h4, h5, h6, h7, h8]

/-- Witness for C8: a clean empty stream stops the loop successfully with
the bounds holding, a failing underlying source at the first seek is
fatal, and a truncation or underlying failure at each of the seven
operations inside an iteration is fatal with the underlying error. -/
theorem scannerLoopBoundsWitness :
    (readPlayers ⟨[], none⟩ [] = .ok ([], ⟨[], none⟩, [])) ∧
    (([] : List (List Nat × List Nat)).length ≤ 10 ∧
      ([] : List Player).length ≤ ([] : List Player).length + 10) ∧
    (readPlayersLoop 10 ⟨[], some (.other 3)⟩ [] [] = .error (.other 3)) ∧
    (readPlayersLoop 10 wD1 [] [] = .error .eof) ∧
    (readPlayersLoop 10 wD2 [] [] = .error .eof) ∧
    (readPlayersLoop 10 wD3 [] [] = .error .eof) ∧
    (readPlayersLoop 10 wD4 [] [] = .error (.other 4)) ∧
    (readPlayersLoop 10 wD5 [] [] = .error .eof) ∧
    (readPlayersLoop 10 wD6 [] [] = .error (.other 6)) ∧
    (readPlayersLoop 10 wD7 [] [] = .error .eof) := by
  refine ⟨?_, ?_, ?_, ?_, ?_, ?_, ?_, ?_, ?_, ?_⟩
  · exact scannerLoopBounds.2.1 9 ⟨[], none⟩ [] [] (by decide)
  · exact scannerLoopBounds.1 ⟨[], none⟩ [] ([], ⟨[], none⟩, []) (by decide)
  · exact scannerLoopBounds.2.2.1 9 ⟨[], some (.other 3)⟩ [] [] (.other 3)
      (by decide) (by decide)
  · exact scannerLoopBounds.2.2.2.1 9 wD1 ⟨[], none⟩ [] [] .eof (by decide) (by decide)
  · exact scannerLoopBounds.2.2.2.2.1 9 wD2 ⟨[1, 0, 0, 0], none⟩ ⟨[], none⟩ [] [] 1 .eof
      (by decide) (by decide) (by decide)
  · exact scannerLoopBounds.2.2.2.2.2.1 9 wD3 ⟨[1, 0, 0, 0] ++ z 12, none⟩ ⟨z 12, none⟩
      ⟨[], none⟩ [] [] 1 (z 12) .eof (by decide) (by decide) (by decide) (by decide)
  · exact scannerLoopBounds.2.2.2.2.2.2.1 9 wD4
      ⟨[1, 0, 0, 0] ++ z 12 ++ [1, 65], some (.other 4)⟩
      ⟨z 12 ++ [1, 65], some (.other 4)⟩ ⟨[1, 65], some (.other 4)⟩
      ⟨[], some (.other 4)⟩ [] [] 1 (z 12) [65] (.other 4)
      (by decide) (by decide) (by decide) (by decide) (by decide)
  · exact scannerLoopBounds.2.2.2.2.2.2.2.1 9 wD5
      ⟨[1, 0, 0, 0] ++ z 12 ++ [1, 65] ++ profileIDIndicator, none⟩
      ⟨z 12 ++ [1, 65] ++ profileIDIndicator, none⟩
      ⟨[1, 65] ++ profileIDIndicator, none⟩ ⟨profileIDIndicator, none⟩ ⟨[], none⟩
      [] [] 1 (z 12) [65] .eof
      (by decide) (by decide) (by decide) (by decide) (by decide) (by decide)
  · exact scannerLoopBounds.2.2.2.2.2.2.2.2.1 9 wD6
      ⟨[1, 0, 0, 0] ++ z 12 ++ [1, 65] ++ profileIDIndicator ++ [1, 66], some (.other 6)⟩
      ⟨z 12 ++ [1, 65] ++ profileIDIndicator ++ [1, 66], some (.other 6)⟩
      ⟨[1, 65] ++ profileIDIndicator ++ [1, 66], some (.other 6)⟩
      ⟨profileIDIndicator ++ [1, 66], some (.other 6)⟩
      ⟨[1, 66], some (.other 6)⟩ ⟨[], some (.other 6)⟩
      [] [] 1 (z 12) [65] [66] (.other 6)
      (by decide) (by decide) (by decide) (by decide) (by decide) (by decide) (by decide)
  · exact scannerLoopBounds.2.2.2.2.2.2.2.2.2 9 wD7
      ⟨[1, 0, 0, 0] ++ z 12 ++ [1, 65] ++ profileIDIndicator ++ [1, 66] ++ unknownIndicator, none⟩
      ⟨z 12 ++ [1, 65] ++ profileIDIndicator ++ [1, 66] ++ unknownIndicator, none⟩
      ⟨[1, 65] ++ profileIDIndicator ++ [1, 66] ++ unknownIndicator, none⟩
      ⟨profileIDIndicator ++ [1, 66] ++ unknownIndicator, none⟩
      ⟨[1, 66] ++ unknownIndicator, none⟩ ⟨unknownIndicator, none⟩ ⟨[], none⟩
      [] [] 1 (z 12) [65] [66] .eof
      (by decide) (by decide) (by decide) (by decide) (by decide) (by decide) (by decide)
      (by decide)

/-- Stream that exhausts cleanly before the profile-id marker ever
occurs. -/
def wC9a : ByteCursor := ⟨indicator ++ [1, 0, 0, 0] ++ z 12 ++ [1, 65], none⟩

/-- Stream that exhausts cleanly before the unknown marker ever occurs. -/
def wC9b : ByteCursor :=
  ⟨indicator ++ [1, 0, 0, 0] ++ z 12 ++ [1, 65] ++ profileIDIndicator ++ [1, 66], none⟩

/-- C9: the distinguished pattern-not-found signal is a successful stop
only at the team-marker seek — when the profile-id marker seek or the
unknown marker seek fails with that same signal, the scanner loop returns
it as an error (and decode aborts). -/
theorem scannerMidSeekNotFoundFatal :
    (∀ (fuel : Nat) (s s1 s2 s3 s4 : ByteCursor) ps cmp ti b12 un,
       seek indicator s = .ok s1 → readInt s1 = .ok (ti, s2) →
       readBytes 12 s2 = .ok (b12, s3) → readString s3 = .ok (un, s4) →
       seek profileIDIndicator s4 = .error .patternNotFound →
       readPlayersLoop (fuel + 1) s ps cmp = .error .patternNotFound) ∧
    (∀ (fuel : Nat) (s s1 s2 s3 s4 s5 s6 : ByteCursor) ps cmp ti b12 un pid,
       seek indicator s = .ok s1 → readInt s1 = .ok (ti, s2) →
       readBytes 12 s2 = .ok (b12, s3) → readString s3 = .ok (un, s4) →
       seek profileIDIndicator s4 = .ok s5 → readString s5 = .ok (pid, s6) →
       seek unknownIndicator s6 = .error .patternNotFound →
       readPlayersLoop (fuel + 1) s ps cmp = .error .patternNotFound) := by
  constructor
  · intro fuel s s1 s2 s3 s4 ps cmp ti b12 un h1 h2 h3 h4 h5
    simp only [readPlayersLoop, h1, h2, h3, h4, h5]
  · intro fuel s s1 s2 s3 s4 s5 s6 ps cmp ti b12 un pid h1 h2 h3 h4 h5 h6 h7
    simp only [readPlayersLoop, h1, h2, h3, h4, h5, h6, h7]

/-- Witness for C9: two streams exhausting cleanly before the profile-id
marker and before the unknown marker make `readPlayers` fail with the
distinguished signal instead of stopping successfully. -/
theorem scannerMidSeekNotFoundFatalWitness :
    (readPlayersLoop 10 wC9a [] [] = .error .patternNotFound) ∧
    (readPlayersLoop 10 wC9b [] [] = .error .patternNotFound) := by
  constructor
  · exact scannerMidSeekNotFoundFatal.1 9 wC9a
      ⟨[1, 0, 0, 0] ++ z 12 ++ [1, 65], none⟩ ⟨z 12 ++ [1, 65], none⟩
      ⟨[1, 65], none⟩ ⟨[], none⟩ [] [] 1 (z 12) [65]
      (by decide) (by decide) (by decide) (by decide) (by decide)
  · exact scannerMidSeekNotFoundFatal.2 9 wC9b
      ⟨[1, 0, 0, 0] ++ z 12 ++ [1, 65] ++ profileIDIndicator ++ [1, 66], none⟩
      ⟨z 12 ++ [1, 65] ++ profileIDIndicator ++ [1, 66], none⟩
      ⟨[1, 65] ++ profileIDIndicator ++ [1, 66], none⟩
      ⟨profileIDIndicator ++ [1, 66], none⟩ ⟨[1, 66], none⟩ ⟨[], none⟩
      [] [] 1 (z 12) [65] [66]
      (by decide) (by decide) (by decide) (by decide) (by decide) (by decide) (by decide)

/-- C3 counterexample: on `dissect` followed by fourteen consecutive zero
bytes the scan returns successfully right after the fourteenth zero — the
consumed region holds a single maximal zero run of length fourteen, and
the number of maximal runs of exactly seven zeros in it is 0, not 2, so
the scan's stopping point is not "after the second separate run of
exactly 7 zero bytes". -/
theorem magicFourteenZeroCounterexample :
    readHeaderMagic ⟨dissectBytes ++ z 14 ++ [5] ++ z 7 ++ [6], none⟩ =
      .ok ⟨[5] ++ z 7 ++ [6], none⟩ ∧
    exactSevenRuns (z 14) = 0 := by
  constructor
  · decide
  · decide

/-- C3 (amended): `readHeaderMagic` requires the 7-byte literal `dissect`
(failing with the invalid-format error on any other 7 bytes), then scans
byte-by-byte counting consecutive zero bytes cumulatively into groups of
seven — a group completes every seventh consecutive zero, so a single run
of fourteen zeros completes two groups — and returns successfully exactly
after consuming the shortest prefix that completes the second group;
if no such prefix exists the underlying error (the reported tail error,
or the unexpected-end-of-file error on a clean exhaustion) is
propagated. -/
theorem readHeaderMagicCharacterization :
    (∀ (rest : List Nat) (te : Option Err),
       readHeaderMagic ⟨dissectBytes ++ rest, te⟩ =
         (minStop rest).elim (.error (te.getD .eof)) (fun p => .ok ⟨rest.drop p, te⟩)) ∧
    (∀ (data : List Nat) (te : Option Err),
       7 ≤ data.length → data.take 7 ≠ dissectBytes →
       readHeaderMagic ⟨data, te⟩ = .error .invalidFile) := by
  constructor
  · intro rest te
    have hmagic : readHeaderMagic ⟨dissectBytes ++ rest, te⟩ = magicScan te rest 0 0 := by
      have h7 : readBytes 7 ⟨dissectBytes ++ rest, te⟩ = .ok (dissectBytes, ⟨rest, te⟩) := by
        simp [readBytes, dissectBytes, ascii]
      rw [readHeaderMagic, h7]
      simp
    rw [hmagic, magicScan_eq_minStop rest te 0 0 (by omega) (by omega)]
    unfold minStop
    refine elim_congr_opt _ _ _ _ _ ?_ (fun x => rfl)
    refine find_congr_pointwise _ _ ?_ _
    intro a
    simp [groupSum]
  · intro data te hlen hne
    have h7 : readBytes 7 ⟨data, te⟩ = .ok (data.take 7, ⟨data.drop 7, te⟩) := by
      simp [readBytes, hlen]
    rw [readHeaderMagic, h7]
    simp [hne]

/-- Witness for C3: the characterization evaluated on a stream with two
separate seven-zero runs (the scan ends at the second run's last byte),
and the invalid-format failure on a wrong magic. -/
theorem readHeaderMagicCharacterizationWitness :
    readHeaderMagic ⟨dissectBytes ++ (z 7 ++ [1] ++ z 7 ++ [9, 9]), none⟩ =
      .ok ⟨[9, 9], none⟩ ∧
    readHeaderMagic ⟨ascii "Dissect", none⟩ = .error .invalidFile := by
  constructor
  · rw [readHeaderMagicCharacterization.1 (z 7 ++ [1] ++ z 7 ++ [9, 9]) none]
    decide
  · exact readHeaderMagicCharacterization.2 (ascii "Dissect") none (by decide) (by decide)
